import Mathlib

/-!
The nsqd process lifecycle host (`apps/nsqd/main.go`).

A shallow embedding of the service host of `apps/nsqd/main.go`: the `program`
value with its one-shot guard and engine handle, and the three methods
`Init`, `Start` and `Stop` that the `svc` harness drives.

Every method is a pure function from the program value (and the outside
world it reads) to a `Result`: the program value afterwards, the trace of
observable actions in the order the method performs them, and how the call
ended (returned to its caller, terminated the process, or panicked).

What the file does not define (the flag set, the configuration decoder, the
engine) enters as a field of `World`: a table of what each outside call
answers.
-/

namespace Nsqd

/-! ## Data model -/

/-- Go `error` value that is not nil: only the text it renders to is observed. -/
abbrev GoError := String

/-- Typed value of one option (string, integer, duration, boolean, list). -/
inductive Value where
  | str (s : String)
  | int (n : Int)
  | duration (ns : Int)
  | bool (b : Bool)
  | list (xs : List String)
deriving DecidableEq, Repr

/-- The `nsqd.Options` record: its named fields with their current values. -/
abbrev Options := List (String × Value)

/-- Modelled from the spec: the declaration of `type config` is not in
`main.go`. The Raw Config mirrors the keys of the Option Set and every field
is optional, so it is the list of the fields the file specifies. The zero
value (`var cfg config`) specifies nothing. -/
abbrev config := List (String × Value)

/-- The `*flag.FlagSet` after `Parse`, as far as `Start` reads it: the two
special flags it looks up, and the flags that were set on the command line. -/
structure FlagSet where
  /-- Value of `flagSet.Lookup("version")`. -/
  version : Bool
  /-- Value of `flagSet.Lookup("config")`. -/
  config : String
  /-- Flags explicitly set on the command line, with the value given. -/
  actual : List (String × Value)
deriving DecidableEq, Repr

/-- How `nsqdFlagSet(opts)` followed by `flagSet.Parse(os.Args[1:])` ends:
`Parse` hands back the flag set, or the flag set's error handling ends the
process (`Start` ignores the value `Parse` returns). -/
inductive ParseResult where
  | parsed (flagSet : FlagSet)
  | exits (code : Int)
deriving DecidableEq, Repr

/-- A constructed engine (`*nsqd.NSQD` that is not nil), known by identity. -/
structure NSQD where
  id : Nat
deriving DecidableEq, Repr

/-- The `svc.Environment` handed to `Init`. -/
structure Environment where
  IsWindowsService : Bool
deriving DecidableEq, Repr

/-- Zero value of `sync.Once` is `done = false`. -/
structure Once where
  done : Bool
deriving DecidableEq, Repr

/-- The `program` struct: the one-shot guard and the engine handle, nil until
`Start` has constructed the engine. -/
structure program where
  once : Once
  nsqd : Option NSQD
deriving DecidableEq, Repr

/-- The value `main` builds with `&program{}`. -/
def program.zero : program := ⟨⟨false⟩, none⟩

/-- Observable actions, in the order the code performs them. Calls that
report success or failure carry the answer they got. -/
inductive Event where
  /-- `os.Chdir(dir)`. -/
  | chdir (dir : String)
  /-- `nsqdFlagSet(opts)` and `flagSet.Parse(os.Args[1:])`. -/
  | flagParse (args : List String)
  /-- `rand.Seed(time.Now().UTC().UnixNano())`. -/
  | randSeed
  /-- `fmt.Println(version.String("nsqd"))`. -/
  | printVersion
  /-- `toml.DecodeFile(configFile, &cfg)`. -/
  | decodeFile (path : String) (ok : Bool)
  /-- `cfg.Validate()`. -/
  | validate (ok : Bool)
  /-- `options.Resolve(opts, flagSet, cfg)`. -/
  | resolve
  /-- `nsqd.New(opts)`. -/
  | engineNew (opts : Options) (ok : Bool)
  /-- `p.nsqd.LoadMetadata()`. -/
  | loadMetadata (ok : Bool)
  /-- `p.nsqd.PersistMetadata()`. -/
  | persistMetadata (ok : Bool)
  /-- The `go func() ...` statement: the run loop goroutine is launched. -/
  | goMain
  /-- `p.nsqd.Main()` returned, inside the goroutine. -/
  | mainReturned (ok : Bool)
  /-- `p.nsqd.Exit()` on a constructed engine. -/
  | engineExit (n : NSQD)
  /-- Message handed to `lg.LogFatal`. -/
  | logFatal (msg : String)
deriving DecidableEq, Repr

/-- How a call ends. -/
inductive Outcome where
  /-- The function returned to its caller with this `error` (`none` is nil). -/
  | returned (err : Option GoError)
  /-- The process was terminated with this exit code. -/
  | exited (code : Int)
  /-- A run-time panic (nil pointer dereference). -/
  | panicked
deriving DecidableEq, Repr

/-- What a call leaves behind. -/
structure Result where
  prog : program
  trace : List Event
  outcome : Outcome
deriving DecidableEq, Repr

/-- Run `r` after the actions `evs` have already happened. -/
def Result.after (evs : List Event) (r : Result) : Result :=
  { r with trace := evs ++ r.trace }

/-- Everything outside `main.go` that the host reads or calls. -/
structure World where
  /-- `os.Args[0]`. -/
  Args0 : String
  /-- `os.Args[1:]`. -/
  Args : List String
  /-- `filepath.Dir`. -/
  filepathDir : String → String
  /-- `os.Chdir`: the error it returns, nil on success. -/
  Chdir : String → Option GoError
  /-- `nsqd.NewOptions()`: the compiled-in defaults. -/
  NewOptions : Options
  /-- `nsqdFlagSet(opts)` then `Parse(args)`. -/
  Parse : Options → List String → ParseResult
  /-- `toml.DecodeFile(path, &cfg)`: the decoded file or the error. -/
  DecodeFile : String → Except GoError config
  /-- The domain rules of `cfg.Validate()`: the message of the rule the
  configuration breaks, if any. -/
  Validate : config → Option String
  /-- `nsqd.New(opts)`. -/
  New : Options → Except GoError NSQD
  /-- `(*NSQD).LoadMetadata()`. -/
  LoadMetadata : NSQD → Option GoError
  /-- `(*NSQD).PersistMetadata()`. -/
  PersistMetadata : NSQD → Option GoError
  /-- `(*NSQD).Main()`: the error the run loop ends with, nil for a clean end. -/
  Main : NSQD → Option GoError
  /-- Exit code of `lg.LogFatal`. -/
  fatalCode : Int
  fatalCode_ne_zero : fatalCode ≠ 0

/-! ## Helpers outside `main.go` -/

/-- Modelled from the spec: `lg.LogFatal` (package `internal/lg`) is not in
`main.go`. A fatal condition is logged with a descriptive message and
terminates the process immediately with a non-zero exit code; the call does
not return. -/
def lg.LogFatal (w : World) (pfx : String) (msg : String) (p : program) : Result :=
  ⟨p, [Event.logFatal (pfx ++ msg)], Outcome.exited w.fatalCode⟩

/-- Modelled from the spec: `options.Resolve` (package `go-options`) is not in
`main.go`. For every field of the Option Set: the value of the command-line
flag when the flag was explicitly set, otherwise the value of the
configuration file when the file specifies the field, otherwise the default
the field already holds. -/
def options.Resolve (opts : Options) (flagSet : FlagSet) (cfg : config) : Options :=
  opts.map fun field =>
    match flagSet.actual.lookup field.1 with
    | some v => (field.1, v)
    | none =>
      match cfg.lookup field.1 with
      | some v => (field.1, v)
      | none => field

/-! ## `main.go` -/

/-- `func logFatal(f string, args ...interface{})`, with the message already
formatted. -/
def logFatal (w : World) (msg : String) (p : program) : Result :=
  lg.LogFatal w "[nsqd] " msg p

/-- Modelled from the spec: the body of `config.Validate` is not in `main.go`.
The Raw Config is validated against domain rules before the merge; a
validation failure aborts startup with a descriptive fatal error. The answer
is `none` when the call returns. -/
def config.Validate (w : World) (cfg : config) (p : program) : Option Result :=
  (w.Validate cfg).map fun msg => logFatal w msg p

/-- Modelled from the spec: `(*NSQD).Exit` is not in `main.go`. The spec gives
`Exit` as the exit action of a constructed Engine Handle, with no return value
observed by the host. It gives an unset handle no exit action: the call
through the nil pointer is Go's nil pointer dereference. The flag says whether
the call returned. -/
def NSQD.Exit (handle : Option NSQD) : List Event × Bool :=
  match handle with
  | some n => ([Event.engineExit n], true)
  | none => ([], false)

/-- The closure `Stop` hands to `p.once.Do`: `p.nsqd.Exit()`. -/
def program.Stop.func1 (p : program) : List Event × Bool :=
  NSQD.Exit p.nsqd

/-- `func (p *program) Stop() error`. `sync.Once.Do` runs the closure only on
the first call and marks the guard done when the closure returns or panics. -/
def program.Stop (p : program) : Result :=
  if p.once.done then
    ⟨p, [], Outcome.returned none⟩
  else
    let done : program := { p with once := ⟨true⟩ }
    match program.Stop.func1 p with
    | (evs, true) => ⟨done, evs, Outcome.returned none⟩
    | (evs, false) => ⟨done, evs, Outcome.panicked⟩

/-- `func (p *program) Init(env svc.Environment) error`. -/
def program.Init (w : World) (env : Environment) (p : program) : Result :=
  if env.IsWindowsService then
    let dir := w.filepathDir w.Args0
    ⟨p, [Event.chdir dir], Outcome.returned (w.Chdir dir)⟩
  else
    ⟨p, [], Outcome.returned none⟩

/-- The goroutine `Start` launches (lines 120-126), run on the program value
as it is when `Main` returns. -/
def program.Start.func1 (w : World) (p : program) : Result :=
  match p.nsqd with
  | none => ⟨p, [], Outcome.panicked⟩
  | some n =>
    match w.Main n with
    | none => ⟨p, [Event.mainReturned true], Outcome.returned none⟩
    | some _ =>
      let r := p.Stop
      match r.outcome with
      | Outcome.returned _ =>
        ⟨r.prog, Event.mainReturned false :: r.trace, Outcome.exited 1⟩
      | o => ⟨r.prog, Event.mainReturned false :: r.trace, o⟩

/-- Lines 79-89 of `Start`: `var cfg config`, then the decode of the
configuration file when a path was given. -/
def program.Start.loadConfig (w : World) (configFile : String) :
    List Event × Except GoError config :=
  if configFile ≠ "" then
    match w.DecodeFile configFile with
    | Except.ok cfg => ([Event.decodeFile configFile true], Except.ok cfg)
    | Except.error err => ([Event.decodeFile configFile false], Except.error err)
  else
    ([], Except.ok [])

/-- Lines 100-128 of `Start`: construct the engine, load and persist the
metadata, launch the run loop. -/
def program.Start.engine (w : World) (p : program) (opts : Options) : Result :=
  match w.New opts with
  | Except.error err =>
    (logFatal w ("failed to instantiate nsqd - " ++ err) p).after
      [Event.engineNew opts false]
  | Except.ok nsqd =>
    let p : program := { p with nsqd := some nsqd }
    match w.LoadMetadata nsqd with
    | some err =>
      (logFatal w ("failed to load metadata - " ++ err) p).after
        [Event.engineNew opts true, Event.loadMetadata false]
    | none =>
      match w.PersistMetadata nsqd with
      | some err =>
        (logFatal w ("failed to persist metadata - " ++ err) p).after
          [Event.engineNew opts true, Event.loadMetadata true,
            Event.persistMetadata false]
      | none =>
        ⟨p, [Event.engineNew opts true, Event.loadMetadata true,
              Event.persistMetadata true, Event.goMain],
          Outcome.returned none⟩

/-- `func (p *program) Start() error`. -/
def program.Start (w : World) (p : program) : Result :=
  let opts := w.NewOptions
  match w.Parse opts w.Args with
  | ParseResult.exits code => ⟨p, [Event.flagParse w.Args], Outcome.exited code⟩
  | ParseResult.parsed flagSet =>
    if flagSet.version then
      ⟨p, [Event.flagParse w.Args, Event.randSeed, Event.printVersion],
        Outcome.exited 0⟩
    else
      let configFile := flagSet.config
      match program.Start.loadConfig w configFile with
      | (evs, Except.error err) =>
        (logFatal w ("failed to load config file " ++ configFile ++ " - " ++ err) p).after
          ([Event.flagParse w.Args, Event.randSeed] ++ evs)
      | (evs, Except.ok cfg) =>
        match config.Validate w cfg p with
        | some fatal =>
          fatal.after
            ([Event.flagParse w.Args, Event.randSeed] ++ evs ++ [Event.validate false])
        | none =>
          let opts := options.Resolve opts flagSet cfg
          (program.Start.engine w p opts).after
            ([Event.flagParse w.Args, Event.randSeed] ++ evs ++
              [Event.validate true, Event.resolve])

/-! ## Vocabulary of the properties -/

/-- Results of `k` successive calls of `Stop`, each on the program value the
call before it left behind. -/
def stopSeq : Nat → program → List Result
  | 0, _ => []
  | k + 1, p => p.Stop :: stopSeq k p.Stop.prog

/-- Number of invocations of the engine's `Exit` in a trace. -/
def exitCount (t : List Event) : Nat :=
  t.countP fun e => match e with
    | Event.engineExit _ => true
    | _ => false

/-- The host is Stopped once its one-shot guard has fired. -/
def program.Stopped (p : program) : Prop := p.once.done = true

/-- The engine operations `Start` invokes. -/
inductive EngineOp where
  | New
  | LoadMetadata
  | PersistMetadata
  | LaunchMain
deriving DecidableEq, Repr

/-- The engine operation an action is, with whether it succeeded (the launch
of the goroutine cannot fail). -/
def engineCall : Event → Option (EngineOp × Bool)
  | Event.engineNew _ ok => some (EngineOp.New, ok)
  | Event.loadMetadata ok => some (EngineOp.LoadMetadata, ok)
  | Event.persistMetadata ok => some (EngineOp.PersistMetadata, ok)
  | Event.goMain => some (EngineOp.LaunchMain, true)
  | _ => none

/-- The engine operations of a trace, in order. -/
def engineCalls (t : List Event) : List (EngineOp × Bool) :=
  t.filterMap engineCall

/-- The order in which `Start` goes through the engine operations. -/
def startSequence : List EngineOp :=
  [EngineOp.New, EngineOp.LoadMetadata, EngineOp.PersistMetadata, EngineOp.LaunchMain]

/-- The Option Set handed to `nsqd.New` in a trace, if it was called. -/
def passedToNew (t : List Event) : Option Options :=
  t.findSome? fun e => match e with
    | Event.engineNew opts _ => some opts
    | _ => none

/-- What the configuration file specifies in a run with this flag set: the
decoded file when a path is given and the decode succeeds, nothing otherwise. -/
def fileValues (w : World) (fl : FlagSet) : config :=
  if fl.config ≠ "" then
    match w.DecodeFile fl.config with
    | Except.ok cfg => cfg
    | Except.error _ => []
  else []

/-- Precedence of the three sources of one option: flag, then file, then
default. -/
def byPrecedence (flag file : Option Value) (dflt : Value) : Value :=
  match flag with
  | some v => v
  | none =>
    match file with
    | some v => v
    | none => dflt

/-- An action that reports a failed step. -/
def Event.failed : Event → Bool
  | Event.decodeFile _ ok => !ok
  | Event.validate ok => !ok
  | Event.engineNew _ ok => !ok
  | Event.loadMetadata ok => !ok
  | Event.persistMetadata ok => !ok
  | Event.mainReturned ok => !ok
  | _ => false

/-- A world for concrete runs: fixed defaults, the command line with the
flag set it parses to, and the answers of the outside calls one by one. -/
def sampleWorld (args : List String) (parse : ParseResult)
    (file : Except GoError config) (valid : Option String)
    (new : Except GoError NSQD) (load persist run : Option GoError) : World where
  Args0 := "/usr/local/bin/nsqd"
  Args := args
  filepathDir := fun _ => "/usr/local/bin"
  Chdir := fun _ => none
  NewOptions := [("port", Value.int 4150), ("verbose", Value.bool false)]
  Parse := fun _ _ => parse
  DecodeFile := fun _ => file
  Validate := fun _ => valid
  New := fun _ => new
  LoadMetadata := fun _ => load
  PersistMetadata := fun _ => persist
  Main := fun _ => run
  fatalCode := 1
  fatalCode_ne_zero := by decide

/-- A run with no flag and no configuration file: the answers of the engine
given one by one. -/
def engineWorld (new : Except GoError NSQD) (load persist run : Option GoError) : World :=
  sampleWorld [] (ParseResult.parsed ⟨false, "", []⟩) (Except.ok []) none new load persist run

/-- A run where every step of `Start` succeeds: no flag set, no file. -/
def goodWorld : World :=
  engineWorld (Except.ok ⟨7⟩) none none none

/-- A run whose engine is constructed and whose metadata fail to load. -/
def badMetadataWorld : World :=
  engineWorld (Except.ok ⟨7⟩) (some "corrupt metadata") none none

/-- A run whose run loop ends with an error. -/
def badMainWorld : World :=
  engineWorld (Except.ok ⟨7⟩) none none (some "listen failed")

/-- A run with a configuration file that sets the port to 5000, and no other
flag. -/
def fileWorld : World :=
  sampleWorld ["--config=nsqd.toml"] (ParseResult.parsed ⟨false, "nsqd.toml", []⟩)
    (Except.ok [("port", Value.int 5000)]) none (Except.ok ⟨7⟩) none none none

/-- A run with a configuration file that sets the port to 5000 and a flag that
sets it to 6000. -/
def fileAndFlagWorld : World :=
  sampleWorld ["--config=nsqd.toml", "--port=6000"]
    (ParseResult.parsed ⟨false, "nsqd.toml", [("port", Value.int 6000)]⟩)
    (Except.ok [("port", Value.int 5000)]) none (Except.ok ⟨7⟩) none none none

/-- A run with a configuration file path whose decode fails. -/
def badFileWorld : World :=
  sampleWorld ["--config=nsqd.toml"] (ParseResult.parsed ⟨false, "nsqd.toml", []⟩)
    (Except.error "expected key separator") none (Except.ok ⟨7⟩) none none none

/-- A run with the version flag set together with a configuration file path
whose decode would fail. -/
def versionWorld : World :=
  sampleWorld ["--version", "--config=nsqd.toml"]
    (ParseResult.parsed ⟨true, "nsqd.toml", []⟩)
    (Except.error "expected key separator") none (Except.ok ⟨7⟩) none none none

/-! ## Stop and the one-shot guard -/

/-- A call of `Stop` on a host whose guard has fired changes nothing. -/
theorem Stop_of_done (p : program) (h : p.once.done = true) :
    p.Stop = ⟨p, [], Outcome.returned none⟩ := by
  simp [program.Stop, h]

/-- The first call of `Stop` on a host with an engine invokes `Exit` on it. -/
theorem Stop_of_fresh (p : program) (n : NSQD) (hn : p.nsqd = some n)
    (h : p.once.done = false) :
    p.Stop = ⟨{ p with once := ⟨true⟩ }, [Event.engineExit n], Outcome.returned none⟩ := by
  simp [program.Stop, program.Stop.func1, NSQD.Exit, hn, h]

/-- After the guard has fired, any number of further calls are no-ops. -/
theorem stopSeq_of_done (k : Nat) (p : program) (h : p.once.done = true) :
    stopSeq k p = List.replicate k ⟨p, [], Outcome.returned none⟩ := by
  induction k with
  | zero => rfl
  | succ k ih => simp [stopSeq, Stop_of_done p h, ih, List.replicate_succ]


/-- C1: for every N ≥ 1, N calls of `Stop` in sequence on a host with a
constructed engine and an unused guard invoke the engine's `Exit` exactly
once: the first call invokes it, every later call has no effect and leaves
the host as it is, and every call returns nil. -/
theorem Stop_N_times_exits_once (N : Nat) (hN : 1 ≤ N) (p : program) (n : NSQD)
    (hn : p.nsqd = some n) (hfresh : p.once.done = false) :
    (stopSeq N p).length = N ∧
    (stopSeq N p).map Result.trace = [Event.engineExit n] :: List.replicate (N - 1) [] ∧
    exitCount ((stopSeq N p).map Result.trace).flatten = 1 ∧
    (∀ r ∈ stopSeq N p, r.outcome = Outcome.returned none) ∧
    (∀ r ∈ (stopSeq N p).tail, r.trace = [] ∧ r.prog = p.Stop.prog) := by
  obtain ⟨k, rfl⟩ : ∃ k, N = k + 1 := ⟨N - 1, by omega⟩
  have hdone : p.Stop.prog.once.done = true := by
    rw [Stop_of_fresh p n hn hfresh]
  have hseq : stopSeq (k + 1) p =
      p.Stop :: List.replicate k ⟨p.Stop.prog, [], Outcome.returned none⟩ := by
    simp [stopSeq, stopSeq_of_done k _ hdone]
  rw [hseq]
  have hfirst := Stop_of_fresh p n hn hfresh
  refine ⟨by simp, ?_, ?_, ?_, ?_⟩
  · simp [hfirst]
  · simp [hfirst, exitCount]
  · intro r hr
    simp only [List.mem_cons, List.mem_replicate] at hr
    rcases hr with rfl | ⟨_, rfl⟩
    · rw [hfirst]
    · rfl
  · intro r hr
    simp only [List.tail_cons, List.mem_replicate] at hr
    rcases hr with ⟨_, rfl⟩
    exact ⟨rfl, rfl⟩

/-- Witness for C1: three calls of `Stop` on the host a successful `Start`
leaves behind. -/
theorem Stop_N_times_exits_once_witness :
    (program.Start goodWorld program.zero).outcome = Outcome.returned none ∧
    (stopSeq 3 (program.Start goodWorld program.zero).prog).map Result.trace =
      [[Event.engineExit ⟨7⟩], [], []] ∧
    exitCount ((stopSeq 3 (program.Start goodWorld program.zero).prog).map
      Result.trace).flatten = 1 :=
  have h := Stop_N_times_exits_once 3 (by decide)
    (program.Start goodWorld program.zero).prog ⟨7⟩ (by decide) (by decide)
  ⟨by decide, h.2.1, h.2.2.1⟩


/-- C8 (as stated, refuted): `Stop` on the Unstarted host that `main` builds,
whose engine handle is still unset, does not return nil: its one-shot action
calls `Exit` through the nil handle and the call panics. -/
theorem Stop_unstarted_does_not_return :
    program.zero.nsqd = none ∧ program.zero.once.done = false ∧
    (program.Stop program.zero).outcome = Outcome.panicked ∧
    (program.Stop program.zero).outcome ≠ Outcome.returned none := by
  decide

/-- C8 (amended): from any state in which the engine handle is set, `Stop`
returns nil, leaves the host Stopped with the same handle, and a second call
is a no-op; `Stop` has no guard for an unset handle, so on a host whose
handle is unset and whose guard is unused the one-shot action goes through
the nil handle and the call does not return. -/
theorem Stop_moves_started_host_to_Stopped (p : program) :
    (∀ n, p.nsqd = some n →
      p.Stop.outcome = Outcome.returned none ∧ p.Stop.prog.Stopped ∧
      p.Stop.prog.nsqd = some n ∧
      p.Stop.prog.Stop = ⟨p.Stop.prog, [], Outcome.returned none⟩) ∧
    (p.nsqd = none → p.once.done = false →
      p.Stop.outcome = Outcome.panicked ∧ p.Stop.trace = []) := by
  constructor
  · intro n hn
    cases hd : p.once.done
    · rw [Stop_of_fresh p n hn hd]
      exact ⟨rfl, rfl, hn, Stop_of_done _ rfl⟩
    · rw [Stop_of_done p hd]
      exact ⟨rfl, hd, hn, Stop_of_done p hd⟩
  · intro hn hd
    simp [program.Stop, program.Stop.func1, NSQD.Exit, hn, hd]

/-- Witness for C8 (amended): the host a successful `Start` leaves behind,
and the Unstarted host. -/
theorem Stop_moves_started_host_to_Stopped_witness :
    (program.Start goodWorld program.zero).prog.nsqd = some ⟨7⟩ ∧
    (program.Start goodWorld program.zero).prog.Stop.outcome = Outcome.returned none ∧
    (program.Start goodWorld program.zero).prog.Stop.prog.Stopped ∧
    program.zero.Stop.outcome = Outcome.panicked :=
  have h := (Stop_moves_started_host_to_Stopped
    (program.Start goodWorld program.zero).prog).1 ⟨7⟩ (by decide)
  ⟨by decide, h.1, h.2.1,
    ((Stop_moves_started_host_to_Stopped program.zero).2 (by decide) (by decide)).1⟩

/-! ## The run loop goroutine -/

/-- C6: on a host with a constructed engine, if `Main` returns an error the
goroutine invokes `Stop` (its effect on the host and its trace are those of
`Stop`; the engine's `Exit` is invoked exactly when no earlier `Stop` has
fired the guard) and then ends the process with exit code 1; if `Main`
returns nil the goroutine neither invokes `Stop` nor ends the process. -/
theorem run_loop_error_stops_and_exits (w : World) (p : program) (n : NSQD)
    (hn : p.nsqd = some n) :
    (∀ err, w.Main n = some err →
      (program.Start.func1 w p).trace = Event.mainReturned false :: p.Stop.trace ∧
      (program.Start.func1 w p).prog = p.Stop.prog ∧
      (program.Start.func1 w p).prog.Stopped ∧
      (program.Start.func1 w p).outcome = Outcome.exited 1 ∧
      (Event.engineExit n ∈ (program.Start.func1 w p).trace ↔ p.once.done = false)) ∧
    (w.Main n = none →
      program.Start.func1 w p = ⟨p, [Event.mainReturned true], Outcome.returned none⟩) := by
  constructor
  · intro err herr
    cases hd : p.once.done
    · simp [program.Start.func1, hn, herr, Stop_of_fresh p n hn hd, program.Stopped]
    · simp [program.Start.func1, hn, herr, Stop_of_done p hd, program.Stopped, hd]
  · intro hok
    simp [program.Start.func1, hn, hok]

/-- Witness for C6: the run loop of a started host fails with no earlier
`Stop`; and the run loop of a started host ends cleanly. -/
theorem run_loop_error_stops_and_exits_witness :
    (program.Start.func1 badMainWorld ⟨⟨false⟩, some ⟨7⟩⟩).outcome = Outcome.exited 1 ∧
    (program.Start.func1 badMainWorld ⟨⟨false⟩, some ⟨7⟩⟩).trace =
      Event.mainReturned false :: (program.Stop ⟨⟨false⟩, some ⟨7⟩⟩).trace ∧
    program.Start.func1 goodWorld ⟨⟨false⟩, some ⟨7⟩⟩ =
      ⟨⟨⟨false⟩, some ⟨7⟩⟩, [Event.mainReturned true], Outcome.returned none⟩ :=
  have h := (run_loop_error_stops_and_exits badMainWorld ⟨⟨false⟩, some ⟨7⟩⟩ ⟨7⟩ rfl).1
    "listen failed" rfl
  ⟨h.2.2.2.1, h.1,
    (run_loop_error_stops_and_exits goodWorld ⟨⟨false⟩, some ⟨7⟩⟩ ⟨7⟩ rfl).2 rfl⟩

/-! ## Init -/

/-- C9: `Init` calls `os.Chdir` exactly when the environment reports a Windows
service, with the directory of `os.Args[0]`, and then returns exactly what
`os.Chdir` returned; in every other environment it returns nil and performs
no action; the program value is never changed. -/
theorem Init_chdir_iff_windows_service (w : World) (env : Environment) (p : program) :
    (∀ dir, Event.chdir dir ∈ (program.Init w env p).trace ↔
      (env.IsWindowsService = true ∧ dir = w.filepathDir w.Args0)) ∧
    (env.IsWindowsService = true →
      (program.Init w env p).trace = [Event.chdir (w.filepathDir w.Args0)] ∧
      (program.Init w env p).outcome = Outcome.returned (w.Chdir (w.filepathDir w.Args0))) ∧
    (env.IsWindowsService = false →
      (program.Init w env p).trace = [] ∧
      (program.Init w env p).outcome = Outcome.returned none) ∧
    (program.Init w env p).prog = p := by
  cases h : env.IsWindowsService <;> simp [program.Init, h]

/-- Witness for C9: a Windows service whose directory change fails, and an
interactive process. -/
theorem Init_chdir_iff_windows_service_witness :
    (program.Init { goodWorld with Chdir := fun _ => some "access denied" }
      ⟨true⟩ program.zero).outcome = Outcome.returned (some "access denied") ∧
    (program.Init goodWorld ⟨false⟩ program.zero).trace = [] :=
  ⟨((Init_chdir_iff_windows_service
      { goodWorld with Chdir := fun _ => some "access denied" } ⟨true⟩
      program.zero).2.1 rfl).2,
    ((Init_chdir_iff_windows_service goodWorld ⟨false⟩ program.zero).2.2.1 rfl).1⟩


/-! ## The runs of Start -/

/-- What `loadConfig` answers: nothing decoded without a path, else the
answer of the decoder. -/
theorem loadConfig_cases (w : World) (path : String) :
    (path = "" ∧ program.Start.loadConfig w path = ([], Except.ok [])) ∨
    (∃ cfg, path ≠ "" ∧ w.DecodeFile path = Except.ok cfg ∧
      program.Start.loadConfig w path = ([Event.decodeFile path true], Except.ok cfg)) ∨
    (∃ err, path ≠ "" ∧ w.DecodeFile path = Except.error err ∧
      program.Start.loadConfig w path =
        ([Event.decodeFile path false], Except.error err)) := by
  by_cases hp : path = ""
  · left
    simp [program.Start.loadConfig, hp]
  · right
    cases hd : w.DecodeFile path with
    | ok cfg => left; exact ⟨cfg, hp, rfl, by simp [program.Start.loadConfig, hp, hd]⟩
    | error err => right; exact ⟨err, hp, rfl, by simp [program.Start.loadConfig, hp, hd]⟩

/-- The four ways the engine part of `Start` ends. -/
theorem engine_cases (w : World) (p : program) (opts : Options) :
    (∃ err, w.New opts = Except.error err ∧
      program.Start.engine w p opts =
        ⟨p, [Event.engineNew opts false,
              Event.logFatal ("[nsqd] " ++ ("failed to instantiate nsqd - " ++ err))],
          Outcome.exited w.fatalCode⟩) ∨
    (∃ n err, w.New opts = Except.ok n ∧ w.LoadMetadata n = some err ∧
      program.Start.engine w p opts =
        ⟨{ p with nsqd := some n },
          [Event.engineNew opts true, Event.loadMetadata false,
            Event.logFatal ("[nsqd] " ++ ("failed to load metadata - " ++ err))],
          Outcome.exited w.fatalCode⟩) ∨
    (∃ n err, w.New opts = Except.ok n ∧ w.LoadMetadata n = none ∧
      w.PersistMetadata n = some err ∧
      program.Start.engine w p opts =
        ⟨{ p with nsqd := some n },
          [Event.engineNew opts true, Event.loadMetadata true, Event.persistMetadata false,
            Event.logFatal ("[nsqd] " ++ ("failed to persist metadata - " ++ err))],
          Outcome.exited w.fatalCode⟩) ∨
    (∃ n, w.New opts = Except.ok n ∧ w.LoadMetadata n = none ∧
      w.PersistMetadata n = none ∧
      program.Start.engine w p opts =
        ⟨{ p with nsqd := some n },
          [Event.engineNew opts true, Event.loadMetadata true, Event.persistMetadata true,
            Event.goMain],
          Outcome.returned none⟩) := by
  cases hnew : w.New opts with
  | error err =>
    left
    exact ⟨err, rfl, by simp [program.Start.engine, hnew, logFatal, lg.LogFatal, Result.after]⟩
  | ok n =>
    right
    cases hload : w.LoadMetadata n with
    | some err =>
      left
      exact ⟨n, err, rfl, hload,
        by simp [program.Start.engine, hnew, hload, logFatal, lg.LogFatal, Result.after]⟩
    | none =>
      right
      cases hpers : w.PersistMetadata n with
      | some err =>
        left
        exact ⟨n, err, rfl, hload, hpers,
          by simp [program.Start.engine, hnew, hload, hpers, logFatal, lg.LogFatal,
            Result.after]⟩
      | none =>
        right
        exact ⟨n, rfl, hload, hpers, by simp [program.Start.engine, hnew, hload, hpers]⟩

/-- The five ways `Start` ends before or at the engine part. -/
theorem Start_cases (w : World) (p : program) :
    (∃ code, w.Parse w.NewOptions w.Args = ParseResult.exits code ∧
      program.Start w p = ⟨p, [Event.flagParse w.Args], Outcome.exited code⟩) ∨
    (∃ fl, w.Parse w.NewOptions w.Args = ParseResult.parsed fl ∧ fl.version = true ∧
      program.Start w p =
        ⟨p, [Event.flagParse w.Args, Event.randSeed, Event.printVersion],
          Outcome.exited 0⟩) ∨
    (∃ fl err, w.Parse w.NewOptions w.Args = ParseResult.parsed fl ∧ fl.version = false ∧
      fl.config ≠ "" ∧ w.DecodeFile fl.config = Except.error err ∧
      program.Start w p =
        ⟨p, [Event.flagParse w.Args, Event.randSeed, Event.decodeFile fl.config false,
              Event.logFatal ("[nsqd] " ++
                ("failed to load config file " ++ fl.config ++ " - " ++ err))],
          Outcome.exited w.fatalCode⟩) ∨
    (∃ fl evs cfg msg, w.Parse w.NewOptions w.Args = ParseResult.parsed fl ∧
      fl.version = false ∧ program.Start.loadConfig w fl.config = (evs, Except.ok cfg) ∧
      (evs = [] ∨ evs = [Event.decodeFile fl.config true]) ∧
      w.Validate cfg = some msg ∧
      program.Start w p =
        ⟨p, [Event.flagParse w.Args, Event.randSeed] ++ evs ++
              [Event.validate false, Event.logFatal ("[nsqd] " ++ msg)],
          Outcome.exited w.fatalCode⟩) ∨
    (∃ fl evs cfg, w.Parse w.NewOptions w.Args = ParseResult.parsed fl ∧
      fl.version = false ∧ program.Start.loadConfig w fl.config = (evs, Except.ok cfg) ∧
      (evs = [] ∨ evs = [Event.decodeFile fl.config true]) ∧
      w.Validate cfg = none ∧
      program.Start w p =
        (program.Start.engine w p (options.Resolve w.NewOptions fl cfg)).after
          ([Event.flagParse w.Args, Event.randSeed] ++ evs ++
            [Event.validate true, Event.resolve])) := by
  cases hparse : w.Parse w.NewOptions w.Args with
  | exits code =>
    left
    exact ⟨code, rfl, by simp [program.Start, hparse]⟩
  | parsed fl =>
    right
    cases hv : fl.version with
    | true =>
      left
      exact ⟨fl, rfl, hv, by simp [program.Start, hparse, hv]⟩
    | false =>
      right
      rcases loadConfig_cases w fl.config with ⟨hp, hl⟩ | ⟨cfg, hp, hd, hl⟩ | ⟨err, hp, hd, hl⟩
      · right
        cases hval : w.Validate [] with
        | some msg =>
          left
          exact ⟨fl, [], [], msg, rfl, hv, hl, Or.inl rfl, hval,
            by simp [program.Start, hparse, hv, hl, hval, config.Validate, logFatal, lg.LogFatal,
              Result.after]⟩
        | none =>
          right
          exact ⟨fl, [], [], rfl, hv, hl, Or.inl rfl, hval,
            by simp [program.Start, hparse, hv, hl, hval, config.Validate]⟩
      · right
        cases hval : w.Validate cfg with
        | some msg =>
          left
          exact ⟨fl, _, cfg, msg, rfl, hv, hl, Or.inr rfl, hval,
            by simp [program.Start, hparse, hv, hl, hval, config.Validate, logFatal, lg.LogFatal,
              Result.after]⟩
        | none =>
          right
          exact ⟨fl, _, cfg, rfl, hv, hl, Or.inr rfl, hval,
            by simp [program.Start, hparse, hv, hl, hval, config.Validate]⟩
      · left
        exact ⟨fl, err, rfl, hv, hp, hd,
          by simp [program.Start, hparse, hv, hl, logFatal, lg.LogFatal, Result.after]⟩


/-- Every run of `Start`, with its program value, trace and outcome. -/
theorem Start_runs (w : World) (p : program) :
    (∃ code, w.Parse w.NewOptions w.Args = ParseResult.exits code ∧
      program.Start w p = ⟨p, [Event.flagParse w.Args], Outcome.exited code⟩) ∨
    (∃ fl, w.Parse w.NewOptions w.Args = ParseResult.parsed fl ∧ fl.version = true ∧
      program.Start w p =
        ⟨p, [Event.flagParse w.Args, Event.randSeed, Event.printVersion],
          Outcome.exited 0⟩) ∨
    (∃ fl err, w.Parse w.NewOptions w.Args = ParseResult.parsed fl ∧ fl.version = false ∧
      fl.config ≠ "" ∧ w.DecodeFile fl.config = Except.error err ∧
      program.Start w p =
        ⟨p, [Event.flagParse w.Args, Event.randSeed, Event.decodeFile fl.config false,
              Event.logFatal ("[nsqd] " ++
                ("failed to load config file " ++ fl.config ++ " - " ++ err))],
          Outcome.exited w.fatalCode⟩) ∨
    (∃ fl evs cfg, w.Parse w.NewOptions w.Args = ParseResult.parsed fl ∧
      fl.version = false ∧ program.Start.loadConfig w fl.config = (evs, Except.ok cfg) ∧
      (evs = [] ∨ evs = [Event.decodeFile fl.config true]) ∧
      ((∃ msg, w.Validate cfg = some msg ∧
        program.Start w p =
          ⟨p, [Event.flagParse w.Args, Event.randSeed] ++ evs ++
                [Event.validate false, Event.logFatal ("[nsqd] " ++ msg)],
            Outcome.exited w.fatalCode⟩) ∨
      (∃ err, w.Validate cfg = none ∧
        w.New (options.Resolve w.NewOptions fl cfg) = Except.error err ∧
        program.Start w p =
          ⟨p, [Event.flagParse w.Args, Event.randSeed] ++ evs ++
                [Event.validate true, Event.resolve,
                  Event.engineNew (options.Resolve w.NewOptions fl cfg) false,
                  Event.logFatal ("[nsqd] " ++ ("failed to instantiate nsqd - " ++ err))],
            Outcome.exited w.fatalCode⟩) ∨
      (∃ n err, w.Validate cfg = none ∧
        w.New (options.Resolve w.NewOptions fl cfg) = Except.ok n ∧
        w.LoadMetadata n = some err ∧
        program.Start w p =
          ⟨{ p with nsqd := some n },
            [Event.flagParse w.Args, Event.randSeed] ++ evs ++
                [Event.validate true, Event.resolve,
                  Event.engineNew (options.Resolve w.NewOptions fl cfg) true,
                  Event.loadMetadata false,
                  Event.logFatal ("[nsqd] " ++ ("failed to load metadata - " ++ err))],
            Outcome.exited w.fatalCode⟩) ∨
      (∃ n err, w.Validate cfg = none ∧
        w.New (options.Resolve w.NewOptions fl cfg) = Except.ok n ∧
        w.LoadMetadata n = none ∧ w.PersistMetadata n = some err ∧
        program.Start w p =
          ⟨{ p with nsqd := some n },
            [Event.flagParse w.Args, Event.randSeed] ++ evs ++
                [Event.validate true, Event.resolve,
                  Event.engineNew (options.Resolve w.NewOptions fl cfg) true,
                  Event.loadMetadata true, Event.persistMetadata false,
                  Event.logFatal ("[nsqd] " ++ ("failed to persist metadata - " ++ err))],
            Outcome.exited w.fatalCode⟩) ∨
      (∃ n, w.Validate cfg = none ∧
        w.New (options.Resolve w.NewOptions fl cfg) = Except.ok n ∧
        w.LoadMetadata n = none ∧ w.PersistMetadata n = none ∧
        program.Start w p =
          ⟨{ p with nsqd := some n },
            [Event.flagParse w.Args, Event.randSeed] ++ evs ++
                [Event.validate true, Event.resolve,
                  Event.engineNew (options.Resolve w.NewOptions fl cfg) true,
                  Event.loadMetadata true, Event.persistMetadata true, Event.goMain],
            Outcome.returned none⟩))) := by
  rcases Start_cases w p with ⟨code, h1, h2⟩ | ⟨fl, h1, h2, h3⟩ | ⟨fl, err, h1, h2, h3, h4, h5⟩ |
    ⟨fl, evs, cfg, msg, h1, h2, h3, h4, h5, h6⟩ | ⟨fl, evs, cfg, h1, h2, h3, h4, h5, h6⟩
  · exact Or.inl ⟨code, h1, h2⟩
  · exact Or.inr (Or.inl ⟨fl, h1, h2, h3⟩)
  · exact Or.inr (Or.inr (Or.inl ⟨fl, err, h1, h2, h3, h4, h5⟩))
  · exact Or.inr (Or.inr (Or.inr ⟨fl, evs, cfg, h1, h2, h3, h4, Or.inl ⟨msg, h5, h6⟩⟩))
  · refine Or.inr (Or.inr (Or.inr ⟨fl, evs, cfg, h1, h2, h3, h4, Or.inr ?_⟩))
    rcases engine_cases w p (options.Resolve w.NewOptions fl cfg) with
      ⟨err, e1, e2⟩ | ⟨n, err, e1, e2, e3⟩ | ⟨n, err, e1, e2, e3, e4⟩ | ⟨n, e1, e2, e3, e4⟩
    · exact Or.inl ⟨err, h5, e1, by simp [h6, e2, Result.after]⟩
    · exact Or.inr (Or.inl ⟨n, err, h5, e1, e2, by simp [h6, e3, Result.after]⟩)
    · exact Or.inr (Or.inr (Or.inl ⟨n, err, h5, e1, e2, e3, by simp [h6, e4, Result.after]⟩))
    · exact Or.inr (Or.inr (Or.inr ⟨n, h5, e1, e2, e3, by simp [h6, e4, Result.after]⟩))


/-! ## Start: the version flag and the fatal steps -/

/-- C4: when the version flag is set, `Start` prints the version and ends the
process with exit code 0, whatever the other flags are: its whole trace is
the flag parse, the seeding and the print, so no configuration file is
decoded, nothing is validated or resolved, and no engine is constructed. -/
theorem version_flag_exits_zero (w : World) (p : program) (fl : FlagSet)
    (hparse : w.Parse w.NewOptions w.Args = ParseResult.parsed fl)
    (hversion : fl.version = true) :
    (program.Start w p).trace =
      [Event.flagParse w.Args, Event.randSeed, Event.printVersion] ∧
    (program.Start w p).outcome = Outcome.exited 0 ∧
    (program.Start w p).prog = p ∧
    (∀ path ok, Event.decodeFile path ok ∉ (program.Start w p).trace) ∧
    (∀ ok, Event.validate ok ∉ (program.Start w p).trace) ∧
    Event.resolve ∉ (program.Start w p).trace ∧
    (∀ opts ok, Event.engineNew opts ok ∉ (program.Start w p).trace) := by
  simp [program.Start, hparse, hversion]

/-- Witness for C4: the version flag together with a configuration file path
whose decode would fail. -/
theorem version_flag_exits_zero_witness :
    (program.Start versionWorld program.zero).outcome = Outcome.exited 0 ∧
    (∀ path ok, Event.decodeFile path ok ∉ (program.Start versionWorld program.zero).trace) :=
  have h := version_flag_exits_zero versionWorld program.zero ⟨true, "nsqd.toml", []⟩ rfl rfl
  ⟨h.2.1, h.2.2.2.1⟩

/-- C3: if `LoadMetadata` returns an error during `Start`, then
`PersistMetadata` is never invoked and the run loop is never launched; the
failure is logged as fatal, which is the last action, and the process ends
with the non-zero exit code of a fatal error. -/
theorem load_failure_is_fatal (w : World) (p : program)
    (h : Event.loadMetadata false ∈ (program.Start w p).trace) :
    (∀ ok, Event.persistMetadata ok ∉ (program.Start w p).trace) ∧
    Event.goMain ∉ (program.Start w p).trace ∧
    (program.Start w p).outcome = Outcome.exited w.fatalCode ∧
    w.fatalCode ≠ 0 ∧
    (∃ msg, (program.Start w p).trace.getLast? = some (Event.logFatal msg)) := by
  have hne := w.fatalCode_ne_zero
  rcases Start_runs w p with ⟨code, -, hs⟩ | ⟨fl, -, -, hs⟩ | ⟨fl, err, -, -, -, -, hs⟩ |
    ⟨fl, evs, cfg, -, -, -, hevs, ⟨msg, -, hs⟩ | ⟨err, -, -, hs⟩ | ⟨n, err, -, -, -, hs⟩ |
      ⟨n, err, -, -, -, -, hs⟩ | ⟨n, -, -, -, -, hs⟩⟩
  all_goals rw [hs] at h ⊢
  all_goals first
    | (rcases hevs with rfl | rfl <;> simp_all)
    | simp_all

/-- Witness for C3: the engine is constructed and its metadata fail to load. -/
theorem load_failure_is_fatal_witness :
    Event.loadMetadata false ∈ (program.Start badMetadataWorld program.zero).trace ∧
    (program.Start badMetadataWorld program.zero).outcome = Outcome.exited 1 ∧
    Event.goMain ∉ (program.Start badMetadataWorld program.zero).trace ∧
    (∀ ok, Event.persistMetadata ok ∉ (program.Start badMetadataWorld program.zero).trace) :=
  have h := load_failure_is_fatal badMetadataWorld program.zero (by decide)
  ⟨by decide, h.2.2.1, h.2.1, h.1⟩

/-- The decode of the configuration file fails in a run exactly when flag
parsing returns without the version flag, a path is given, and the decoder
answers that path with an error. -/
theorem decode_failure_occurs (w : World) (p : program) (path : String) :
    Event.decodeFile path false ∈ (program.Start w p).trace ↔
      ∃ fl err, w.Parse w.NewOptions w.Args = ParseResult.parsed fl ∧
        fl.version = false ∧ fl.config = path ∧ path ≠ "" ∧
        w.DecodeFile path = Except.error err := by
  constructor
  · intro h
    rcases Start_runs w p with ⟨code, -, hs⟩ | ⟨fl, -, -, hs⟩ | ⟨fl, err, h1, h2, hp, hd, hs⟩ |
      ⟨fl, evs, cfg, -, -, -, hevs, ⟨msg, -, hs⟩ | ⟨err, -, -, hs⟩ | ⟨n, err, -, -, -, hs⟩ |
        ⟨n, err, -, -, -, -, hs⟩ | ⟨n, -, -, -, -, hs⟩⟩
    all_goals rw [hs] at h
    · simp at h
    · simp at h
    · simp at h
      subst h
      exact ⟨fl, err, h1, h2, rfl, hp, hd⟩
    all_goals (rcases hevs with rfl | rfl <;> simp at h)
  · rintro ⟨fl, err, hparse, hv, rfl, hp, hd⟩
    simp [program.Start, hparse, hv, program.Start.loadConfig, hp, hd, logFatal,
      lg.LogFatal, Result.after]

/-- C5: when a configuration file path is given and its decode fails, `Start`
logs the failure as fatal and the process ends with a non-zero exit code;
validation, resolution and engine construction are never reached, and the
program value is left without an engine. -/
theorem decode_failure_is_fatal (w : World) (p : program) (path : String)
    (h : Event.decodeFile path false ∈ (program.Start w p).trace) :
    path ≠ "" ∧
    (∃ err, w.DecodeFile path = Except.error err ∧
      (program.Start w p).trace.getLast? = some (Event.logFatal
        ("[nsqd] " ++ ("failed to load config file " ++ path ++ " - " ++ err)))) ∧
    (program.Start w p).outcome = Outcome.exited w.fatalCode ∧
    w.fatalCode ≠ 0 ∧
    (∀ ok, Event.validate ok ∉ (program.Start w p).trace) ∧
    Event.resolve ∉ (program.Start w p).trace ∧
    (∀ opts ok, Event.engineNew opts ok ∉ (program.Start w p).trace) ∧
    (program.Start w p).prog = p := by
  have hne := w.fatalCode_ne_zero
  rcases Start_runs w p with ⟨code, -, hs⟩ | ⟨fl, -, -, hs⟩ | ⟨fl, err, -, -, hp, hd, hs⟩ |
    ⟨fl, evs, cfg, -, -, -, hevs, ⟨msg, -, hs⟩ | ⟨err, -, -, hs⟩ | ⟨n, err, -, -, -, hs⟩ |
      ⟨n, err, -, -, -, -, hs⟩ | ⟨n, -, -, -, -, hs⟩⟩
  all_goals rw [hs] at h ⊢
  · simp at h
  · simp at h
  · simp at h
    subst h
    simp [hp, hd, hne]
  all_goals (rcases hevs with rfl | rfl <;> simp at h)

/-- Witness for C5: a configuration file path is given and the file does not
decode. -/
theorem decode_failure_is_fatal_witness :
    Event.decodeFile "nsqd.toml" false ∈ (program.Start badFileWorld program.zero).trace ∧
    (program.Start badFileWorld program.zero).outcome = Outcome.exited 1 ∧
    (∀ opts ok, Event.engineNew opts ok ∉ (program.Start badFileWorld program.zero).trace) :=
  have h := decode_failure_is_fatal badFileWorld program.zero "nsqd.toml" (by decide)
  ⟨by decide, h.2.2.1, h.2.2.2.2.2.2.1⟩

/-! ## Start: the order of the engine operations -/

/-- C7: in every run of `Start` the engine operations invoked are an initial
segment of New, LoadMetadata, PersistMetadata, launch of Main, so each is
invoked at most once and in that order; every operation but the last one
invoked succeeded; and when New, LoadMetadata and PersistMetadata all
succeed, all four are performed in that order, the run loop is launched
exactly once, as the last action, and `Start` returns nil. -/
theorem engine_operations_in_order (w : World) (p : program) :
    (engineCalls (program.Start w p).trace).map Prod.fst <+: startSequence ∧
    ((engineCalls (program.Start w p).trace).map Prod.fst).Nodup ∧
    (∀ c ∈ (engineCalls (program.Start w p).trace).dropLast, c.2 = true) ∧
    ((EngineOp.New, true) ∈ engineCalls (program.Start w p).trace ∧
      (EngineOp.LoadMetadata, true) ∈ engineCalls (program.Start w p).trace ∧
      (EngineOp.PersistMetadata, true) ∈ engineCalls (program.Start w p).trace →
      engineCalls (program.Start w p).trace =
        [(EngineOp.New, true), (EngineOp.LoadMetadata, true),
          (EngineOp.PersistMetadata, true), (EngineOp.LaunchMain, true)] ∧
      (program.Start w p).trace.count Event.goMain = 1 ∧
      (program.Start w p).trace.getLast? = some Event.goMain ∧
      (program.Start w p).outcome = Outcome.returned none) := by
  rcases Start_runs w p with ⟨code, -, hs⟩ | ⟨fl, -, -, hs⟩ | ⟨fl, err, -, -, -, -, hs⟩ |
    ⟨fl, evs, cfg, -, -, -, hevs, ⟨msg, -, hs⟩ | ⟨err, -, -, hs⟩ | ⟨n, err, -, -, -, hs⟩ |
      ⟨n, err, -, -, -, -, hs⟩ | ⟨n, -, -, -, -, hs⟩⟩
  all_goals rw [hs]
  all_goals first
    | (rcases hevs with rfl | rfl <;>
        simp [engineCalls, engineCall, startSequence, List.filterMap_cons])
    | simp [engineCalls, engineCall, startSequence, List.filterMap_cons]

/-- Witness for C7: a run in which every engine operation succeeds, and a
run that stops at a failed LoadMetadata. -/
theorem engine_operations_in_order_witness :
    engineCalls (program.Start goodWorld program.zero).trace =
      [(EngineOp.New, true), (EngineOp.LoadMetadata, true),
        (EngineOp.PersistMetadata, true), (EngineOp.LaunchMain, true)] ∧
    (engineCalls (program.Start badMetadataWorld program.zero).trace).map Prod.fst <+:
      startSequence :=
  ⟨((engine_operations_in_order goodWorld program.zero).2.2.2
      ⟨by decide, by decide, by decide⟩).1,
    (engine_operations_in_order badMetadataWorld program.zero).1⟩

/-! ## Start: the Option Set handed to the engine -/

/-- A field of the resolved Option Set holds the value by precedence. -/
theorem lookup_Resolve (opts : Options) (fl : FlagSet) (cfg : config) (name : String) :
    (options.Resolve opts fl cfg).lookup name =
      (opts.lookup name).map
        (byPrecedence (fl.actual.lookup name) (cfg.lookup name)) := by
  induction opts with
  | nil => rfl
  | cons field rest ih =>
    obtain ⟨key, dflt⟩ := field
    by_cases hk : name = key
    · subst hk
      simp only [options.Resolve, List.map_cons]
      cases hf : List.lookup name fl.actual with
      | some v => simp [List.lookup_cons, byPrecedence]
      | none =>
        cases hc : List.lookup name cfg with
        | some v => simp [List.lookup_cons, byPrecedence]
        | none => simp [List.lookup_cons, byPrecedence]
    · have hne : (name == key) = false := by simpa using hk
      have ih2 := ih
      simp only [options.Resolve] at ih2
      simp only [options.Resolve, List.map_cons]
      cases hf : List.lookup key fl.actual with
      | some v => simp [List.lookup_cons, hne, ih2]
      | none =>
        cases hc : List.lookup key cfg with
        | some v => simp [List.lookup_cons, hne, ih2]
        | none => simp [List.lookup_cons, hne, ih2]

/-- Resolution keeps the fields of the Option Set, in order. -/
theorem Resolve_fields (opts : Options) (fl : FlagSet) (cfg : config) :
    (options.Resolve opts fl cfg).map Prod.fst = opts.map Prod.fst := by
  induction opts with
  | nil => rfl
  | cons field rest ih =>
    simp only [options.Resolve, List.map_cons] at ih ⊢
    rw [ih]
    cases List.lookup field.1 fl.actual <;> cases List.lookup field.1 cfg <;> rfl

/-- The configuration `Start` goes on with is what the file specifies. -/
theorem loadConfig_ok (w : World) (fl : FlagSet) (evs : List Event) (cfg : config)
    (h : program.Start.loadConfig w fl.config = (evs, Except.ok cfg)) :
    cfg = fileValues w fl := by
  rcases loadConfig_cases w fl.config with ⟨hp, hl⟩ | ⟨c, hp, hd, hl⟩ | ⟨err, hp, hd, hl⟩
  · rw [hl] at h
    simp only [Prod.mk.injEq, Except.ok.injEq] at h
    simp [fileValues, hp, ← h.2]
  · rw [hl] at h
    simp only [Prod.mk.injEq, Except.ok.injEq] at h
    simp [fileValues, hp, hd, ← h.2]
  · rw [hl] at h
    simp at h


/-- C2: the Option Set that `Start` hands to `nsqd.New` has the fields of
`nsqd.NewOptions`, and every field holds the value of the command-line flag
when the flag was explicitly set, otherwise the value of the configuration
file when the file specifies it, otherwise the compiled-in default. -/
theorem options_resolved_by_precedence (w : World) (p : program) (opts : Options)
    (h : passedToNew (program.Start w p).trace = some opts) :
    ∃ fl, w.Parse w.NewOptions w.Args = ParseResult.parsed fl ∧
      opts.map Prod.fst = w.NewOptions.map Prod.fst ∧
      ∀ name dflt, w.NewOptions.lookup name = some dflt →
        opts.lookup name =
          some (byPrecedence (fl.actual.lookup name) ((fileValues w fl).lookup name) dflt) := by
  have key : ∀ fl evs cfg, program.Start.loadConfig w fl.config = (evs, Except.ok cfg) →
      options.Resolve w.NewOptions fl cfg = opts →
      (opts.map Prod.fst = w.NewOptions.map Prod.fst ∧
        ∀ name dflt, w.NewOptions.lookup name = some dflt →
          opts.lookup name =
            some (byPrecedence (fl.actual.lookup name)
              ((fileValues w fl).lookup name) dflt)) := by
    intro fl evs cfg hl ho
    subst ho
    refine ⟨Resolve_fields _ _ _, ?_⟩
    intro name dflt hd
    rw [lookup_Resolve, hd, loadConfig_ok w fl evs cfg hl]
    rfl
  rcases Start_runs w p with ⟨code, -, hs⟩ | ⟨fl, -, -, hs⟩ | ⟨fl, err, -, -, -, -, hs⟩ |
    ⟨fl, evs, cfg, hparse, -, hl, hevs, ⟨msg, -, hs⟩ | ⟨err, -, -, hs⟩ | ⟨n, err, -, -, -, hs⟩ |
      ⟨n, err, -, -, -, -, hs⟩ | ⟨n, -, -, -, -, hs⟩⟩
  all_goals rw [hs] at h
  · simp [passedToNew] at h
  · simp [passedToNew] at h
  · simp [passedToNew] at h
  · rcases hevs with rfl | rfl <;> simp [passedToNew] at h
  all_goals
    refine ⟨fl, hparse, key fl evs cfg hl ?_⟩
    rcases hevs with rfl | rfl <;> simpa [passedToNew] using h

/-- Witness for C2: the file sets the port to 5000 and the flag sets it to
6000. -/
theorem options_resolved_by_precedence_witness :
    passedToNew (program.Start fileAndFlagWorld program.zero).trace =
      some [("port", Value.int 6000), ("verbose", Value.bool false)] ∧
    ∃ fl, fileAndFlagWorld.Parse fileAndFlagWorld.NewOptions fileAndFlagWorld.Args =
          ParseResult.parsed fl ∧
      [("port", Value.int 6000), ("verbose", Value.bool false)].map Prod.fst =
        fileAndFlagWorld.NewOptions.map Prod.fst ∧
      ∀ name dflt, fileAndFlagWorld.NewOptions.lookup name = some dflt →
        [("port", Value.int 6000), ("verbose", Value.bool false)].lookup name =
          some (byPrecedence (fl.actual.lookup name)
            ((fileValues fileAndFlagWorld fl).lookup name) dflt) :=
  ⟨by decide,
    options_resolved_by_precedence fileAndFlagWorld program.zero
      [("port", Value.int 6000), ("verbose", Value.bool false)] (by decide)⟩

/-- The three scenarios of the port option: the default 4150 with no file
and no flag, the file value 5000 with no flag, the flag value 6000 over the
file value 5000. -/
theorem port_scenarios :
    (passedToNew (program.Start goodWorld program.zero).trace).bind
      (List.lookup "port") = some (Value.int 4150) ∧
    (passedToNew (program.Start fileWorld program.zero).trace).bind
      (List.lookup "port") = some (Value.int 5000) ∧
    (passedToNew (program.Start fileAndFlagWorld program.zero).trace).bind
      (List.lookup "port") = some (Value.int 6000) := by
  decide

/-! ## Start: how it ends -/

/-- In a trace that ends with one failed step and its fatal log, after steps
that did not fail, the failed step is the only one. -/
theorem failed_step_unique (pre : List Event) (step : Event) (msg : String)
    (hpre : ∀ e ∈ pre, e.failed = false) (e : Event)
    (he : e ∈ pre ++ [step, Event.logFatal msg]) (hfail : e.failed = true) :
    e = step := by
  simp only [List.mem_append, List.mem_cons, List.mem_singleton, List.not_mem_nil,
    or_false] at he
  rcases he with h | h | h
  · rw [hpre e h] at hfail
    cases hfail
  · exact h
  · subst h
    simp [Event.failed] at hfail

/-- A run that ends at the flags: no step of `Start` is reached. -/
theorem Start_at_flags (w : World) (p : program)
    (h : (∃ code, w.Parse w.NewOptions w.Args = ParseResult.exits code) ∨
      (∃ fl, w.Parse w.NewOptions w.Args = ParseResult.parsed fl ∧ fl.version = true)) :
    (∃ code, (program.Start w p).outcome = Outcome.exited code) ∧
    (∀ e ∈ (program.Start w p).trace, e.failed = false) ∧
    Event.persistMetadata true ∉ (program.Start w p).trace := by
  rcases h with ⟨code, hparse⟩ | ⟨fl, hparse, hv⟩
  · simp [program.Start, hparse, Event.failed]
  · simp [program.Start, hparse, hv, Event.failed]

/-- A run that gets past the flags: every step succeeds and `Start` returns
nil with the run loop launched, or one step fails and the process ends. -/
theorem Start_past_flags (w : World) (p : program) (fl : FlagSet)
    (hparse : w.Parse w.NewOptions w.Args = ParseResult.parsed fl)
    (hv : fl.version = false) :
    ((program.Start w p).outcome = Outcome.returned none ∧
      (∀ e ∈ (program.Start w p).trace, e.failed = false) ∧
      (program.Start w p).trace.getLast? = some Event.goMain ∧
      (program.Start w p).trace.count Event.goMain = 1 ∧
      (∀ ok, Event.mainReturned ok ∉ (program.Start w p).trace) ∧
      Event.persistMetadata true ∈ (program.Start w p).trace) ∨
    ((program.Start w p).outcome = Outcome.exited w.fatalCode ∧
      Event.goMain ∉ (program.Start w p).trace ∧
      Event.persistMetadata true ∉ (program.Start w p).trace ∧
      ∃ pre step msg,
        (program.Start w p).trace = pre ++ [step, Event.logFatal msg] ∧
        step.failed = true ∧ ∀ e ∈ pre, e.failed = false) := by
  rcases Start_runs w p with ⟨code, h1, hs⟩ | ⟨fl1, h1, h2, hs⟩ | ⟨fl1, err, h1, h2, -, -, hs⟩ |
    ⟨fl1, evs, cfg, h1, h2, -, hevs, ⟨msg, -, hs⟩ | ⟨err, -, -, hs⟩ | ⟨n, err, -, -, -, hs⟩ |
      ⟨n, err, -, -, -, -, hs⟩ | ⟨n, -, -, -, -, hs⟩⟩
  all_goals rw [hs]
  all_goals rw [h1] at hparse
  all_goals cases hparse
  · simp [h2] at hv
  · right
    exact ⟨rfl, by simp, by simp, [Event.flagParse w.Args, Event.randSeed], _, _, rfl, rfl,
      by simp [Event.failed]⟩
  · right
    refine ⟨rfl, ?_, ?_, [Event.flagParse w.Args, Event.randSeed] ++ evs,
      Event.validate false, "[nsqd] " ++ msg, by simp, rfl, ?_⟩
    all_goals rcases hevs with rfl | rfl <;> simp [Event.failed]
  · right
    refine ⟨rfl, ?_, ?_, [Event.flagParse w.Args, Event.randSeed] ++ evs ++
      [Event.validate true, Event.resolve],
      Event.engineNew (options.Resolve w.NewOptions fl cfg) false,
      "[nsqd] " ++ ("failed to instantiate nsqd - " ++ err), by simp, rfl, ?_⟩
    all_goals rcases hevs with rfl | rfl <;> simp [Event.failed]
  · right
    refine ⟨rfl, ?_, ?_, [Event.flagParse w.Args, Event.randSeed] ++ evs ++
      [Event.validate true, Event.resolve,
        Event.engineNew (options.Resolve w.NewOptions fl cfg) true],
      Event.loadMetadata false,
      "[nsqd] " ++ ("failed to load metadata - " ++ err), by simp, rfl, ?_⟩
    all_goals rcases hevs with rfl | rfl <;> simp [Event.failed]
  · right
    refine ⟨rfl, ?_, ?_, [Event.flagParse w.Args, Event.randSeed] ++ evs ++
      [Event.validate true, Event.resolve,
        Event.engineNew (options.Resolve w.NewOptions fl cfg) true,
        Event.loadMetadata true],
      Event.persistMetadata false,
      "[nsqd] " ++ ("failed to persist metadata - " ++ err), by simp, rfl, ?_⟩
    all_goals rcases hevs with rfl | rfl <;> simp [Event.failed]
  · left
    refine ⟨rfl, ?_, ?_, ?_, ?_, ?_⟩
    all_goals rcases hevs with rfl | rfl <;> simp [Event.failed]

/-- C10: `Start` never returns a non-nil error (and never panics). When
PersistMetadata succeeds, the last of the steps, `Start` returns nil with the
run loop launched exactly once as its last action, without waiting for the
run loop to return, and no step has failed. When a step fails (decode,
validation, engine construction, LoadMetadata or PersistMetadata), it is the
first one to fail, the failure is logged as fatal and the process ends right
there with a non-zero exit code: nothing follows, nothing is undone, the run
loop is not launched. In every run that gets past the flags one of the two
happens. -/
theorem Start_returns_nil_or_is_fatal (w : World) (p : program) :
    (∀ err, (program.Start w p).outcome ≠ Outcome.returned (some err)) ∧
    (program.Start w p).outcome ≠ Outcome.panicked ∧
    (Event.persistMetadata true ∈ (program.Start w p).trace →
      (program.Start w p).outcome = Outcome.returned none ∧
      (program.Start w p).trace.getLast? = some Event.goMain ∧
      (program.Start w p).trace.count Event.goMain = 1 ∧
      (∀ ok, Event.mainReturned ok ∉ (program.Start w p).trace) ∧
      (∀ e ∈ (program.Start w p).trace, e.failed = false)) ∧
    (∀ step ∈ (program.Start w p).trace, step.failed = true →
      (program.Start w p).outcome = Outcome.exited w.fatalCode ∧
      w.fatalCode ≠ 0 ∧
      Event.goMain ∉ (program.Start w p).trace ∧
      ∃ pre msg, (program.Start w p).trace = pre ++ [step, Event.logFatal msg] ∧
        ∀ e ∈ pre, e.failed = false) ∧
    (∀ fl, w.Parse w.NewOptions w.Args = ParseResult.parsed fl → fl.version = false →
      (Event.persistMetadata true ∈ (program.Start w p).trace ∨
        ∃ step ∈ (program.Start w p).trace, step.failed = true)) := by
  have hne := w.fatalCode_ne_zero
  have hflags : (∃ code, w.Parse w.NewOptions w.Args = ParseResult.exits code) ∨
      (∃ fl, w.Parse w.NewOptions w.Args = ParseResult.parsed fl ∧ fl.version = true) ∨
      (∃ fl, w.Parse w.NewOptions w.Args = ParseResult.parsed fl ∧ fl.version = false) := by
    cases hparse : w.Parse w.NewOptions w.Args with
    | exits code => exact Or.inl ⟨code, rfl⟩
    | parsed fl =>
      cases hv : fl.version with
      | true => exact Or.inr (Or.inl ⟨fl, rfl, hv⟩)
      | false => exact Or.inr (Or.inr ⟨fl, rfl, hv⟩)
  have hearly : ∀ (_ : (∃ code, w.Parse w.NewOptions w.Args = ParseResult.exits code) ∨
      (∃ fl, w.Parse w.NewOptions w.Args = ParseResult.parsed fl ∧ fl.version = true)),
      (∀ err, (program.Start w p).outcome ≠ Outcome.returned (some err)) ∧
      (program.Start w p).outcome ≠ Outcome.panicked ∧
      (∀ e ∈ (program.Start w p).trace, e.failed = false) ∧
      Event.persistMetadata true ∉ (program.Start w p).trace := by
    intro h
    obtain ⟨⟨code, hc⟩, hnf, hnp⟩ := Start_at_flags w p h
    exact ⟨by simp [hc], by simp [hc], hnf, hnp⟩
  have hlate : ∀ fl, w.Parse w.NewOptions w.Args = ParseResult.parsed fl →
      fl.version = false →
      (∀ err, (program.Start w p).outcome ≠ Outcome.returned (some err)) ∧
      (program.Start w p).outcome ≠ Outcome.panicked := by
    intro fl hparse hv
    rcases Start_past_flags w p fl hparse hv with h | h
    · simp [h.1]
    · simp [h.1]
  refine ⟨?_, ?_, ?_, ?_, ?_⟩
  · rcases hflags with h | h | ⟨fl, hparse, hv⟩
    · exact (hearly (Or.inl h)).1
    · exact (hearly (Or.inr h)).1
    · exact (hlate fl hparse hv).1
  · rcases hflags with h | h | ⟨fl, hparse, hv⟩
    · exact (hearly (Or.inl h)).2.1
    · exact (hearly (Or.inr h)).2.1
    · exact (hlate fl hparse hv).2
  · intro hpers
    rcases hflags with h | h | ⟨fl, hparse, hv⟩
    · exact absurd hpers (hearly (Or.inl h)).2.2.2
    · exact absurd hpers (hearly (Or.inr h)).2.2.2
    · rcases Start_past_flags w p fl hparse hv with h | h
      · exact ⟨h.1, h.2.2.1, h.2.2.2.1, h.2.2.2.2.1, h.2.1⟩
      · exact absurd hpers h.2.2.1
  · intro step hstep hfail
    rcases hflags with h | h | ⟨fl, hparse, hv⟩
    · rw [(hearly (Or.inl h)).2.2.1 step hstep] at hfail
      cases hfail
    · rw [(hearly (Or.inr h)).2.2.1 step hstep] at hfail
      cases hfail
    · rcases Start_past_flags w p fl hparse hv with h | h
      · rw [h.2.1 step hstep] at hfail
        cases hfail
      · obtain ⟨hout, hgo, -, pre, step1, msg, htrace, -, hpre⟩ := h
        have hsame : step = step1 :=
          failed_step_unique pre step1 msg hpre step (htrace ▸ hstep) hfail
        subst hsame
        exact ⟨hout, hne, hgo, pre, msg, htrace, hpre⟩
  · intro fl hparse hv
    rcases Start_past_flags w p fl hparse hv with h | h
    · exact Or.inl h.2.2.2.2.2
    · obtain ⟨-, -, -, pre, step1, msg, htrace, hfail, -⟩ := h
      exact Or.inr ⟨step1, by simp [htrace], hfail⟩

/-- Witness for C10: a run in which every step succeeds, and a run whose
configuration file does not decode. -/
theorem Start_returns_nil_or_is_fatal_witness :
    (program.Start goodWorld program.zero).outcome = Outcome.returned none ∧
    (program.Start badFileWorld program.zero).outcome = Outcome.exited 1 ∧
    (Event.persistMetadata true ∈ (program.Start goodWorld program.zero).trace ∨
      ∃ step ∈ (program.Start goodWorld program.zero).trace, step.failed = true) :=
  ⟨((Start_returns_nil_or_is_fatal goodWorld program.zero).2.2.1 (by decide)).1,
    ((Start_returns_nil_or_is_fatal badFileWorld program.zero).2.2.2.1
      (Event.decodeFile "nsqd.toml" false) (by decide) rfl).1,
    (Start_returns_nil_or_is_fatal goodWorld program.zero).2.2.2.2 ⟨false, "", []⟩ rfl rfl⟩

end Nsqd
